import Mathlib

set_option maxRecDepth 1000000

/-!
A shallow embedding of `io_import_vmd.py`, a VMD (Vocaloid Motion Data)
importer for Blender.  The byte stream is a list of naturals together with
a read position, Python floats are modelled as exact rationals (IEEE-754
binary32 bit patterns are decoded exactly; float arithmetic is idealised
as exact rational arithmetic), and the Blender objects the importer
touches are modelled as explicit functional state.  Python exceptions
become `Except VmdError`.
-/

/-- Errors raised by the importer: `truncated` models Python's
`struct.error` (a read returned fewer bytes than the format requires),
`noNull` models the `ValueError` raised by `s.index(b"\x00")` when a name
buffer holds no null byte, `badEncoding` models `UnicodeDecodeError` from
the "shift-jis" codec, and `invalidHeader` models the `IOError` raised on
a bad magic string. -/
inductive VmdError where
  | truncated
  | noNull
  | badEncoding
  | invalidHeader
deriving DecidableEq

instance {ε α : Type} [DecidableEq ε] [DecidableEq α] : DecidableEq (Except ε α) := fun x y =>
  match x, y with
  | .ok a, .ok b =>
    if h : a = b then .isTrue (congrArg Except.ok h)
    else .isFalse fun hh => h (Except.ok.inj hh)
  | .ok _, .error _ => .isFalse fun hh => Except.noConfusion hh
  | .error _, .ok _ => .isFalse fun hh => Except.noConfusion hh
  | .error e, .error f =>
    if h : e = f then .isTrue (congrArg Except.error h)
    else .isFalse fun hh => h (Except.error.inj hh)

/-- Model of the byte stream `ofs` (a Python file object): the full byte
sequence plus the current read position.  Positions past the end of the
data are legal, as they are for a real file descriptor. -/
structure ByteStream where
  data : List Nat
  pos : Nat
deriving DecidableEq

/-- Model of `ofs.read(n)`: returns up to `n` bytes starting at `pos` and
advances the position by the number of bytes actually returned. -/
def ByteStream.read (s : ByteStream) (n : Nat) : List Nat × ByteStream :=
  ((s.data.drop s.pos).take n,
   ⟨s.data, s.pos + ((s.data.drop s.pos).take n).length⟩)

/-- Model of the relative seek `ofs.seek(n, 1)`: advances the position by
`n`.  Seeking past the end of the data succeeds. -/
def ByteStream.seek (s : ByteStream) (n : Nat) : ByteStream :=
  ⟨s.data, s.pos + n⟩

/-- Model of `readPacked(ofs, fmt) = struct.unpack(fmt, ofs.read(struct.calcsize(fmt)))`,
parameterised by `struct.calcsize(fmt)`.  `struct.unpack` raises
`struct.error` when `read` returned fewer bytes than the format requires.
Splitting the returned bytes into the format's fields is done at each call
site (`leU32`, `unpackBone`, `unpackFace`, the header split). -/
def readPacked (ofs : ByteStream) (size : Nat) : Except VmdError (List Nat × ByteStream) :=
  if (ofs.read size).1.length = size then .ok (ofs.read size) else .error .truncated

/-- Little-endian decoding of a 4-byte unsigned integer (struct format
"I"). -/
def leU32 (b : List Nat) : Nat :=
  b.getD 0 0 + 2 ^ 8 * b.getD 1 0 + 2 ^ 16 * b.getD 2 0 + 2 ^ 24 * b.getD 3 0

/-- Exact rational value of an IEEE-754 binary32 bit pattern (struct
format "f").  Infinities and NaNs (exponent 255) lie outside the values
any claim touches and are mapped to zero. -/
def ratOfFloat32 (n : Nat) : ℚ :=
  let s : Nat := n / 2 ^ 31 % 2
  let e : Nat := n / 2 ^ 23 % 2 ^ 8
  let m : Nat := n % 2 ^ 23
  let sign : ℚ := if s = 1 then -1 else 1
  if e = 255 then 0
  else if e = 0 then sign * (m : ℚ) * (2 : ℚ) ^ (-149 : ℤ)
  else sign * ((2 : ℚ) ^ 23 + (m : ℚ)) * (2 : ℚ) ^ ((e : ℤ) - 150)

/-- Little-endian 32-bit float field. -/
def f32le (b : List Nat) : ℚ :=
  ratOfFloat32 (leU32 b)

/-- Model of `s.index(b"\x00")`: index of the first null byte, `none` when
there is no null byte (Python raises `ValueError` there). -/
def findNull : List Nat → Option Nat
  | [] => none
  | b :: rest => if b = 0 then some 0 else (findNull rest).map (· + 1)

/-- Decoding of one single-byte character of the "shift-jis" codec: ASCII
bytes map to themselves and the half-width katakana bytes 0xA1–0xDF map to
U+FF61–U+FF9F; every other single byte is invalid on its own. -/
def decodeSingle (b : Nat) : Except VmdError Char :=
  if b < 0x80 then .ok (Char.ofNat b)
  else if 0xA1 ≤ b ∧ b ≤ 0xDF then .ok (Char.ofNat (0xFF61 + (b - 0xA1)))
  else .error .badEncoding

/-- Lead bytes of a double-byte "shift-jis" sequence. -/
def isSjisLead (b : Nat) : Bool :=
  decide ((0x81 ≤ b ∧ b ≤ 0x9F) ∨ (0xE0 ≤ b ∧ b ≤ 0xEF))

/-- Decoder for Python's "shift-jis" codec at the level the importer
needs: single bytes via `decodeSingle`, and a valid double-byte sequence
(lead byte per `isSjisLead` with trail byte 0x40–0xFC other than 0x7F)
mapped injectively to a codepoint standing in for its JIS table entry.
Every other byte sequence fails with `UnicodeDecodeError`, as in the
codec; the claims depend only on validity and on distinctness of distinct
names, not on the concrete table. -/
def decodeShiftJis : List Nat → Except VmdError (List Char)
  | [] => .ok []
  | b :: rest =>
    if isSjisLead b then
      match rest with
      | [] => .error .badEncoding
      | t :: rest2 =>
        if 0x40 ≤ t ∧ t ≤ 0xFC ∧ t ≠ 0x7F then
          match decodeShiftJis rest2 with
          | .ok cs => .ok (Char.ofNat (0x10000 + 2 ^ 8 * b + t) :: cs)
          | .error e => .error e
        else .error .badEncoding
    else
      match decodeSingle b with
      | .ok c =>
        match decodeShiftJis rest with
        | .ok cs => .ok (c :: cs)
        | .error e => .error e
      | .error e => .error e

/-- Model of `vmdStr(s) = str(s[:s.index(b"\x00")], "shift-jis")`. -/
def vmdStr (s : List Nat) : Except VmdError String :=
  match findNull s with
  | none => .error .noNull
  | some i =>
    match decodeShiftJis (s.take i) with
    | .ok cs => .ok ⟨cs⟩
    | .error e => .error e

/-- Model of Python's `str.startswith`. -/
def startswith (s p : String) : Bool :=
  s.toList.take p.toList.length == p.toList

/-- Model of `m.get(key, d)` on a Python dict, the dict given as an
association list. -/
def dictGet : List (String × String) → String → String → String
  | [], _, d => d
  | (k, v) :: m, key, d => if k = key then v else dictGet m key d

/-- Quaternion with rational components in mathutils' (w, x, y, z)
order. -/
structure Quat where
  w : ℚ
  x : ℚ
  y : ℚ
  z : ℚ
deriving DecidableEq

/-- Hamilton product, as implemented by mathutils quaternion
multiplication. -/
def Quat.mul (a b : Quat) : Quat :=
  ⟨a.w * b.w - a.x * b.x - a.y * b.y - a.z * b.z,
   a.w * b.x + a.x * b.w + a.y * b.z - a.z * b.y,
   a.w * b.y - a.x * b.z + a.y * b.w + a.z * b.x,
   a.w * b.z + a.x * b.y - a.y * b.x + a.z * b.w⟩

/-- Model of mathutils `conjugated()`. -/
def Quat.conjugated (a : Quat) : Quat :=
  ⟨a.w, -a.x, -a.y, -a.z⟩

/-- Squared norm of a quaternion. -/
def Quat.normSq (a : Quat) : ℚ :=
  a.w ^ 2 + a.x ^ 2 + a.y ^ 2 + a.z ^ 2

/-- Quaternion inverse, conjugate divided by the squared norm; this is the
inverse meant by the specification's B(name)⁻¹. -/
def Quat.inv (a : Quat) : Quat :=
  ⟨a.w / a.normSq, -a.x / a.normSq, -a.y / a.normSq, -a.z / a.normSq⟩

/-- Model of a mathutils Vector with three components. -/
abbrev Vec3 := ℚ × ℚ × ℚ

/-- Mutable state of a pose bone: its `location` and its
`rotation_quaternion`. -/
structure PoseBone where
  location : Vec3
  rotation_quaternion : Quat
deriving DecidableEq

/-- One `keyframe_insert` call on a pose bone: the property it was given,
the frame, and the current value of that property at the moment of the
call. -/
inductive BoneKey where
  | location (name : String) (frame : ℤ) (v : Vec3)
  | rotation_quaternion (name : String) (frame : ℤ) (q : Quat)
deriving DecidableEq

/-- The armature object bound as the bone target.  In Blender,
`obj.data.bones` and `obj.pose.bones` always carry the same bone names, so
both are modelled by the single association list `bones`, pairing each
bone name with its rest rotation `b.matrix_local.to_quaternion()` (the
`baseRot` dictionary of `importVmdBone`, never mutated) and its mutable
pose state.  `keyframes` logs every `keyframe_insert` call in order. -/
structure Armature where
  bones : List (String × Quat × PoseBone)
  keyframes : List BoneKey
deriving DecidableEq

/-- Lookup in `obj.pose.bones` / `baseRot` by bone name. -/
def lookupBone : List (String × Quat × PoseBone) → String → Option (Quat × PoseBone)
  | [], _ => none
  | (k, q, pb) :: bs, n => if k = n then some (q, pb) else lookupBone bs n

/-- Assignment to the pose state of the bone named `n` (the rest rotation
is untouched). -/
def setBone (bs : List (String × Quat × PoseBone)) (n : String) (pb : PoseBone) :
    List (String × Quat × PoseBone) :=
  bs.map fun e => if e.1 = n then (e.1, e.2.1, pb) else e

/-- struct.calcsize("< 15s I 3f 4f 64s") = 15 + 4 + 12 + 16 + 64 bytes. -/
def boneRecordSize : Nat := 15 + 4 + 3 * 4 + 4 * 4 + 64

/-- struct.calcsize("< 15s I f") = 15 + 4 + 4 bytes. -/
def faceRecordSize : Nat := 15 + 4 + 4

/-- One unpacked bone record, the tuple
`name, frame, tx, ty, tz, rx, ry, rz, rw, _` of `importVmdBone`. -/
structure BoneRecord where
  name : List Nat
  frame : Nat
  tx : ℚ
  ty : ℚ
  tz : ℚ
  rx : ℚ
  ry : ℚ
  rz : ℚ
  rw : ℚ
  interp : List Nat
deriving DecidableEq

/-- Field split of struct.unpack("< 15s I 3f 4f 64s") applied to a
111-byte chunk. -/
def unpackBone (b : List Nat) : BoneRecord :=
  { name := b.take 15
    frame := leU32 ((b.drop 15).take 4)
    tx := f32le ((b.drop 19).take 4)
    ty := f32le ((b.drop 23).take 4)
    tz := f32le ((b.drop 27).take 4)
    rx := f32le ((b.drop 31).take 4)
    ry := f32le ((b.drop 35).take 4)
    rz := f32le ((b.drop 39).take 4)
    rw := f32le ((b.drop 43).take 4)
    interp := (b.drop 47).take 64 }

/-- The quaternion `mathutils.Quaternion((rw, -rx, -rz, -ry))` built from
a bone record. -/
def quatOfRecord (r : BoneRecord) : Quat :=
  ⟨r.rw, -r.rx, -r.rz, -r.ry⟩

/-- Pose state written for a matched bone record: location
`Vector((tx, tz, ty))` and rotation
`baseRot.conjugated() * Quaternion((rw, -rx, -rz, -ry)) * baseRot`. -/
def bonePoseOfRecord (B : Quat) (r : BoneRecord) : PoseBone :=
  ⟨(r.tx, r.tz, r.ty), (B.conjugated.mul (quatOfRecord r)).mul B⟩

/-- Body of the `if name in obj.pose.bones:` block of `importVmdBone`:
assign `bone.location` and `bone.rotation_quaternion`, then insert a
keyframe for each of the two properties at `frame`; do nothing when the
name is not among the pose bones. -/
def boneWrite (obj : Armature) (name : String) (frame : ℤ) (r : BoneRecord) : Armature :=
  match lookupBone obj.bones name with
  | some (baseRot, _) =>
    let pb := bonePoseOfRecord baseRot r
    { bones := setBone obj.bones name pb
      keyframes := obj.keyframes ++
        [.location name frame pb.location,
         .rotation_quaternion name frame pb.rotation_quaternion] }
  | none => obj

/-- The `for _ in range(size):` loop of `importVmdBone`, recursing on the
number of records still to read.  Carries the stream, the target state and
`frameEnd`. -/
def importVmdBoneLoop (boneNameMap : List (String × String)) :
    Nat → ByteStream → Armature → ℤ → ℤ → Except VmdError (ByteStream × Armature × ℤ)
  | 0, ofs, obj, _, frameEnd => .ok (ofs, obj, frameEnd)
  | k + 1, ofs, obj, offset, frameEnd =>
    match readPacked ofs boneRecordSize with
    | .error e => .error e
    | .ok (b, ofs') =>
      match vmdStr (unpackBone b).name with
      | .error e => .error e
      | .ok name0 =>
        importVmdBoneLoop boneNameMap k ofs'
          (boneWrite obj (dictGet boneNameMap name0 name0)
            (((unpackBone b).frame : ℤ) + offset) (unpackBone b))
          offset (max frameEnd (((unpackBone b).frame : ℤ) + offset))

/-- Model of `importVmdBone(ofs, obj, offset)`: read the record count,
then run the record loop with `frameEnd` starting at `offset`.  Returns
the stream, the updated object and `frameEnd`. -/
def importVmdBone (boneNameMap : List (String × String)) (ofs : ByteStream) (obj : Armature)
    (offset : ℤ) : Except VmdError (ByteStream × Armature × ℤ) :=
  match readPacked ofs 4 with
  | .error e => .error e
  | .ok (b, ofs') => importVmdBoneLoop boneNameMap (leU32 b) ofs' obj offset offset

/-- Model of `skipVmdBone(ofs)`: read the record count, then relatively
seek over `struct.calcsize("< 15s I 3f 4f 64s") * size` bytes. -/
def skipVmdBone (ofs : ByteStream) : Except VmdError ByteStream :=
  match readPacked ofs 4 with
  | .error e => .error e
  | .ok (b, ofs') => .ok (ofs'.seek (boneRecordSize * leU32 b))

/-- One unpacked face (morph) record, the tuple `name, frame, value` of
`importVmdFace`. -/
structure FaceRecord where
  name : List Nat
  frame : Nat
  value : ℚ
deriving DecidableEq

/-- Field split of struct.unpack("< 15s I f") applied to a 23-byte
chunk. -/
def unpackFace (b : List Nat) : FaceRecord :=
  { name := b.take 15
    frame := leU32 ((b.drop 15).take 4)
    value := f32le ((b.drop 19).take 4) }

/-- The object bound as the morph target:
`obj.data.shape_keys.key_blocks` as an association list from shape-key
name to the block's current `value`, plus the log of
`keyframe_insert("value", frame)` calls as (name, frame, value). -/
structure FaceObj where
  key_blocks : List (String × ℚ)
  keyframes : List (String × ℤ × ℚ)
deriving DecidableEq

/-- Lookup in `key_blocks` by shape-key name. -/
def lookupBlock : List (String × ℚ) → String → Option ℚ
  | [], _ => none
  | (k, v) :: bs, n => if k = n then some v else lookupBlock bs n

/-- Assignment to the `value` of the shape key named `n`. -/
def setBlock (bs : List (String × ℚ)) (n : String) (v : ℚ) : List (String × ℚ) :=
  bs.map fun e => if e.1 = n then (e.1, v) else e

/-- Body of the `if name in obj.data.shape_keys.key_blocks:` block of
`importVmdFace`: assign `block.value`, then insert a keyframe for "value"
at `frame`. -/
def faceWrite (obj : FaceObj) (name : String) (frame : ℤ) (value : ℚ) : FaceObj :=
  match lookupBlock obj.key_blocks name with
  | some _ =>
    { key_blocks := setBlock obj.key_blocks name value
      keyframes := obj.keyframes ++ [(name, frame, value)] }
  | none => obj

/-- The `for _ in range(size):` loop of `importVmdFace`. -/
def importVmdFaceLoop (faceNameMap : List (String × String)) :
    Nat → ByteStream → FaceObj → ℤ → ℤ → Except VmdError (ByteStream × FaceObj × ℤ)
  | 0, ofs, obj, _, frameEnd => .ok (ofs, obj, frameEnd)
  | k + 1, ofs, obj, offset, frameEnd =>
    match readPacked ofs faceRecordSize with
    | .error e => .error e
    | .ok (b, ofs') =>
      match vmdStr (unpackFace b).name with
      | .error e => .error e
      | .ok name0 =>
        importVmdFaceLoop faceNameMap k ofs'
          (faceWrite obj (dictGet faceNameMap name0 name0)
            (((unpackFace b).frame : ℤ) + offset) (unpackFace b).value)
          offset (max frameEnd (((unpackFace b).frame : ℤ) + offset))

/-- Model of `importVmdFace(ofs, obj, offset)`. -/
def importVmdFace (faceNameMap : List (String × String)) (ofs : ByteStream) (obj : FaceObj)
    (offset : ℤ) : Except VmdError (ByteStream × FaceObj × ℤ) :=
  match readPacked ofs 4 with
  | .error e => .error e
  | .ok (b, ofs') => importVmdFaceLoop faceNameMap (leU32 b) ofs' obj offset offset

/-- Model of `skipVmdFace(ofs)`: read the record count, then relatively
seek over `struct.calcsize("< 15s I f") * size` bytes. -/
def skipVmdFace (ofs : ByteStream) : Except VmdError ByteStream :=
  match readPacked ofs 4 with
  | .error e => .error e
  | .ok (b, ofs') => .ok (ofs'.seek (faceRecordSize * leU32 b))

/-- Model of `importVmd(ofs, bone, face, offset)` with the scene's
previous `frame_end` passed in as `frame_end`.  Reads the 50-byte header
("< 30s 20s"; the 20-byte name field is read but unused), checks the
magic, then decodes or skips the bone section followed by the face
section.  The source's final assignment
`bpy.context.scene.frame_end = max(fe0, fe1, frame_end)` is modelled by
returning the updated value in the result tuple. -/
def importVmd (boneNameMap faceNameMap : List (String × String)) (ofs : ByteStream)
    (bone : Option Armature) (face : Option FaceObj) (offset frame_end : ℤ) :
    Except VmdError (Option Armature × Option FaceObj × ℤ × ByteStream) :=
  match readPacked ofs (30 + 20) with
  | .error e => .error e
  | .ok (b, ofs') =>
    match vmdStr (b.take 30) with
    | .error e => .error e
    | .ok magic =>
      if startswith magic ("Vocaloid Motion Data") then
        let boneStep : Except VmdError (ByteStream × Option Armature × ℤ) :=
          match bone with
          | some obj =>
            (importVmdBone boneNameMap ofs' obj offset).map
              fun p => (p.1, some p.2.1, p.2.2)
          | none =>
            (skipVmdBone ofs').map fun s => (s, none, offset)
        match boneStep with
        | .error e => .error e
        | .ok (ofs2, bone', fe0) =>
          let faceStep : Except VmdError (ByteStream × Option FaceObj × ℤ) :=
            match face with
            | some obj =>
              (importVmdFace faceNameMap ofs2 obj offset).map
                fun p => (p.1, some p.2.1, p.2.2)
            | none =>
              (skipVmdFace ofs2).map fun s => (s, none, offset)
          match faceStep with
          | .error e => .error e
          | .ok (ofs3, face', fe1) =>
            .ok (bone', face', max (max fe0 fe1) frame_end, ofs3)
      else .error .invalidHeader

/-- The successive `boneRecordSize`-byte chunks starting at the stream's
position, split into records: the records `importVmdBone` decodes when the
section is fully present. -/
def boneRecordsFrom : Nat → ByteStream → List BoneRecord
  | 0, _ => []
  | k + 1, ofs =>
    unpackBone ((ofs.data.drop ofs.pos).take boneRecordSize) ::
      boneRecordsFrom k (ofs.seek boneRecordSize)

/-- The successive `faceRecordSize`-byte chunks starting at the stream's
position, split into records. -/
def faceRecordsFrom : Nat → ByteStream → List FaceRecord
  | 0, _ => []
  | k + 1, ofs =>
    unpackFace ((ofs.data.drop ofs.pos).take faceRecordSize) ::
      faceRecordsFrom k (ofs.seek faceRecordSize)

/-- The name a bone record resolves to: its name buffer decoded by
`vmdStr` and remapped through the bone name table; `none` when decoding
fails. -/
def resolvedBoneName (m : List (String × String)) (r : BoneRecord) : Option String :=
  match vmdStr r.name with
  | .ok s => some (dictGet m s s)
  | .error _ => none

/-- The name a face record resolves to. -/
def resolvedFaceName (m : List (String × String)) (r : FaceRecord) : Option String :=
  match vmdStr r.name with
  | .ok s => some (dictGet m s s)
  | .error _ => none

/-- The last record of the list resolving to the name `n`. -/
def lastMatchedBone (m : List (String × String)) (n : String) :
    List BoneRecord → Option BoneRecord
  | [] => none
  | r :: rs =>
    match lastMatchedBone m n rs with
    | some r' => some r'
    | none => if resolvedBoneName m r = some n then some r else none

/-- The last record of the list resolving to the name `n`. -/
def lastMatchedFace (m : List (String × String)) (n : String) :
    List FaceRecord → Option FaceRecord
  | [] => none
  | r :: rs =>
    match lastMatchedFace m n rs with
    | some r' => some r'
    | none => if resolvedFaceName m r = some n then some r else none

/-- Running maximum of effective frames: the value of `frameEnd` after
folding `frameEnd = max(frameEnd, frame + offset)` over the given file
frames, starting from `fe`. -/
def maxFrameFold (offset fe : ℤ) (frames : List Nat) : ℤ :=
  frames.foldl (fun a f => max a ((f : ℤ) + offset)) fe

/-- Every `frame` field present in the bone and morph sections of the
stream, in file order, located by the fixed layout: 50-byte header, bone
count, `count × 111`-byte bone records, face count, `count × 23`-byte face
records. -/
def vmdAllFrames (ofs : ByteStream) : List Nat :=
  let n0 := leU32 ((ofs.data.drop (ofs.pos + 50)).take 4)
  let n1 := leU32 ((ofs.data.drop (ofs.pos + 54 + boneRecordSize * n0)).take 4)
  (boneRecordsFrom n0 ⟨ofs.data, ofs.pos + 54⟩).map BoneRecord.frame ++
    (faceRecordsFrom n1 ⟨ofs.data, ofs.pos + 54 + boneRecordSize * n0 + 4⟩).map
      FaceRecord.frame

/-- Little-endian byte encoding of a 32-bit unsigned integer, for building
concrete test streams. -/
def u32le (n : Nat) : List Nat :=
  [n % 2 ^ 8, n / 2 ^ 8 % 2 ^ 8, n / 2 ^ 16 % 2 ^ 8, n / 2 ^ 24 % 2 ^ 8]

/-- ASCII bytes of a string, for building concrete test streams. -/
def asciiBytes (s : String) : List Nat :=
  s.toList.map Char.toNat

/-- A valid 50-byte VMD header: the magic "Vocaloid Motion Data 0002"
padded with nulls to 30 bytes, then a 20-byte model-name field. -/
def testHeader : List Nat :=
  asciiBytes ("Vocaloid Motion Data 0002") ++ List.replicate 5 0 ++ List.replicate 20 0

/-- A bone record whose name is "a", frame is 7, and whose translation,
rotation and interpolation bytes are all zero. -/
def testBoneRec : List Nat :=
  [0x61] ++ List.replicate 14 0 ++ u32le 7 ++ List.replicate (7 * 4) 0 ++
    List.replicate 64 0

/-- A stream holding a valid file: header, a bone section with the single
record `testBoneRec`, and an empty face section. -/
def testVmd1 : ByteStream :=
  ⟨testHeader ++ u32le 1 ++ testBoneRec ++ u32le 0, 0⟩

theorem readPacked_eq_ok {ofs : ByteStream} {n : Nat} {p : List Nat × ByteStream} :
    readPacked ofs n = .ok p ↔
      n ≤ ofs.data.length - ofs.pos ∧ p = ((ofs.data.drop ofs.pos).take n, ofs.seek n) := by
  unfold readPacked ByteStream.read
  by_cases h : n ≤ ofs.data.length - ofs.pos
  · have hl : ((ofs.data.drop ofs.pos).take n).length = n := by
      simp only [List.length_take, List.length_drop]
      omega
    simp [hl, ByteStream.seek, h, eq_comm]
  · have hl : ((ofs.data.drop ofs.pos).take n).length ≠ n := by
      simp only [List.length_take, List.length_drop]
      omega
    simp [hl, h]

theorem readPacked_eq_error {ofs : ByteStream} {n : Nat} :
    ofs.data.length - ofs.pos < n → readPacked ofs n = .error .truncated := by
  intro h
  have hl : ((ofs.data.drop ofs.pos).take n).length ≠ n := by
    simp only [List.length_take, List.length_drop]
    omega
  unfold readPacked ByteStream.read
  rw [if_neg hl]

theorem seek_seek (ofs : ByteStream) (a b : Nat) :
    (ofs.seek a).seek b = ofs.seek (a + b) := by
  simp [ByteStream.seek, Nat.add_assoc]

theorem seek_zero (ofs : ByteStream) : ofs.seek 0 = ofs := by
  cases ofs
  simp [ByteStream.seek]

theorem maxFrameFold_nil (offset fe : ℤ) : maxFrameFold offset fe [] = fe := rfl

theorem maxFrameFold_cons (offset fe : ℤ) (f : Nat) (l : List Nat) :
    maxFrameFold offset fe (f :: l) = maxFrameFold offset (max fe ((f : ℤ) + offset)) l := rfl

theorem le_maxFrameFold (offset : ℤ) : ∀ (l : List Nat) (fe : ℤ), fe ≤ maxFrameFold offset fe l
  | [], fe => le_refl fe
  | f :: l, fe =>
    le_trans (le_max_left fe ((f : ℤ) + offset)) (le_maxFrameFold offset l (max fe ((f : ℤ) + offset)))

theorem maxFrameFold_max (offset : ℤ) :
    ∀ (l : List Nat) (i j : ℤ), maxFrameFold offset (max i j) l = max i (maxFrameFold offset j l)
  | [], i, j => rfl
  | f :: l, i, j => by
    rw [maxFrameFold_cons, maxFrameFold_cons, max_assoc, maxFrameFold_max offset l]

theorem maxFrameFold_append (offset fe : ℤ) (l1 l2 : List Nat) :
    maxFrameFold offset fe (l1 ++ l2) = maxFrameFold offset (maxFrameFold offset fe l1) l2 := by
  simp [maxFrameFold, List.foldl_append]

theorem findNull_eq_none {s : List Nat} (h : ¬ 0 ∈ s) : findNull s = none := by
  induction s with
  | nil => rfl
  | cons b rest ih =>
    simp only [List.mem_cons, not_or] at h
    rw [findNull, if_neg (Ne.symm h.1), ih h.2]
    rfl

theorem decodeShiftJis_error (s : List Nat) :
    ∀ e : VmdError, decodeShiftJis s = .error e → e = .badEncoding := by
  induction s using decodeShiftJis.induct with
  | case1 =>
    intro e h
    simp [decodeShiftJis] at h
  | case2 b hlead =>
    intro e h
    simp only [decodeShiftJis, hlead, if_true] at h
    exact (Except.error.inj h).symm
  | case3 b hlead t rest htr cs hok ih =>
    intro e h
    rw [decodeShiftJis.eq_def] at h
    simp only [hlead, if_true, if_pos htr, hok] at h
    exact absurd h (by simp)
  | case4 b hlead t rest htr e' hin ih =>
    intro e h
    rw [decodeShiftJis.eq_def] at h
    simp only [hlead, if_true, if_pos htr, hin] at h
    exact Except.error.inj h ▸ ih e' hin
  | case5 b hlead t rest hntr =>
    intro e h
    rw [decodeShiftJis.eq_def] at h
    simp only [hlead, if_true, if_neg hntr] at h
    exact (Except.error.inj h).symm
  | case6 b rest hnl c hc cs hok ih =>
    intro e h
    rw [decodeShiftJis.eq_def] at h
    simp only [if_neg hnl, hc, hok] at h
    exact absurd h (by simp)
  | case7 b rest hnl c hc e' hin ih =>
    intro e h
    rw [decodeShiftJis.eq_def] at h
    simp only [if_neg hnl, hc, hin] at h
    exact Except.error.inj h ▸ ih e' hin
  | case8 b rest hnl e' hc =>
    intro e h
    rw [decodeShiftJis.eq_def] at h
    simp only [if_neg hnl, hc] at h
    have he' : e' = VmdError.badEncoding := by
      unfold decodeSingle at hc
      split at hc
      · cases hc
      · split at hc
        · cases hc
        · exact (Except.error.inj hc).symm
    exact Except.error.inj h ▸ he'

theorem vmdStr_error {s : List Nat} {e : VmdError} (h : vmdStr s = .error e) :
    e = .noNull ∨ e = .badEncoding := by
  unfold vmdStr at h
  split at h
  · cases h; exact .inl rfl
  · split at h
    · cases h
    · cases h
      rename_i hd
      exact .inr (decodeShiftJis_error _ _ hd)

theorem lookupBone_setBone_self {bs : List (String × Quat × PoseBone)} {n : String} {B : Quat}
    {pb0 pb : PoseBone} (h : lookupBone bs n = some (B, pb0)) :
    lookupBone (setBone bs n pb) n = some (B, pb) := by
  induction bs with
  | nil => simp [lookupBone] at h
  | cons e bs ih =>
    obtain ⟨k, q, p⟩ := e
    by_cases hk : k = n
    · subst hk
      rw [lookupBone, if_pos rfl] at h
      simp only [Option.some.injEq, Prod.mk.injEq] at h
      obtain ⟨hq, hp⟩ := h
      subst hq
      simp only [setBone, List.map_cons, if_pos rfl]
      rw [lookupBone]
      simp
    · rw [lookupBone, if_neg hk] at h
      simp only [setBone, List.map_cons, if_neg hk]
      rw [lookupBone, if_neg hk]
      exact ih h

theorem lookupBone_setBone_ne {bs : List (String × Quat × PoseBone)} {n n' : String}
    {pb : PoseBone} (h : n' ≠ n) :
    lookupBone (setBone bs n pb) n' = lookupBone bs n' := by
  induction bs with
  | nil => rfl
  | cons e bs ih =>
    obtain ⟨k, q, p⟩ := e
    by_cases hk : k = n
    · have hk' : k ≠ n' := fun hh => h (hh.symm.trans hk)
      simp only [setBone, List.map_cons, if_pos hk]
      rw [lookupBone, if_neg hk', lookupBone, if_neg hk']
      exact ih
    · simp only [setBone, List.map_cons, if_neg hk]
      rw [lookupBone, lookupBone]
      by_cases hk' : k = n'
      · rw [if_pos hk', if_pos hk']
      · rw [if_neg hk', if_neg hk']
        exact ih

theorem lookupBlock_setBlock_self {bs : List (String × ℚ)} {n : String} {v0 v : ℚ}
    (h : lookupBlock bs n = some v0) :
    lookupBlock (setBlock bs n v) n = some v := by
  induction bs with
  | nil => simp [lookupBlock] at h
  | cons e bs ih =>
    obtain ⟨k, q⟩ := e
    by_cases hk : k = n
    · subst hk
      simp only [setBlock, List.map_cons, if_pos rfl]
      rw [lookupBlock]
      simp
    · rw [lookupBlock, if_neg hk] at h
      simp only [setBlock, List.map_cons, if_neg hk]
      rw [lookupBlock, if_neg hk]
      exact ih h

theorem lookupBlock_setBlock_ne {bs : List (String × ℚ)} {n n' : String} {v : ℚ}
    (h : n' ≠ n) :
    lookupBlock (setBlock bs n v) n' = lookupBlock bs n' := by
  induction bs with
  | nil => rfl
  | cons e bs ih =>
    obtain ⟨k, q⟩ := e
    by_cases hk : k = n
    · have hk' : k ≠ n' := fun hh => h (hh.symm.trans hk)
      simp only [setBlock, List.map_cons, if_pos hk]
      rw [lookupBlock, if_neg hk', lookupBlock, if_neg hk']
      exact ih
    · simp only [setBlock, List.map_cons, if_neg hk]
      rw [lookupBlock, lookupBlock]
      by_cases hk' : k = n'
      · rw [if_pos hk', if_pos hk']
      · rw [if_neg hk', if_neg hk']
        exact ih

theorem boneWrite_lookup {obj : Armature} {name : String} {frame : ℤ} {r : BoneRecord}
    {n : String} {B : Quat} {pb : PoseBone} (h : lookupBone obj.bones n = some (B, pb)) :
    lookupBone (boneWrite obj name frame r).bones n =
      some (B, if name = n then bonePoseOfRecord B r else pb) := by
  by_cases hn : name = n
  · subst hn
    rw [boneWrite, h]
    simp only [if_pos rfl]
    exact lookupBone_setBone_self h
  · rw [boneWrite]
    cases hl : lookupBone obj.bones name with
    | none => simpa [if_neg hn] using h
    | some qp =>
      obtain ⟨q0, p0⟩ := qp
      simp only [if_neg hn]
      rw [lookupBone_setBone_ne (fun hh => hn hh.symm)]
      exact h

theorem faceWrite_lookup {obj : FaceObj} {name : String} {frame : ℤ} {value : ℚ}
    {n : String} {v : ℚ} (h : lookupBlock obj.key_blocks n = some v) :
    lookupBlock (faceWrite obj name frame value).key_blocks n =
      some (if name = n then value else v) := by
  by_cases hn : name = n
  · subst hn
    rw [faceWrite, h]
    simp only [if_pos rfl]
    exact lookupBlock_setBlock_self h
  · rw [faceWrite]
    cases hl : lookupBlock obj.key_blocks name with
    | none => simpa [if_neg hn] using h
    | some v0 =>
      simp only [if_neg hn]
      rw [lookupBlock_setBlock_ne (fun hh => hn hh.symm)]
      exact h

theorem Quat.inv_eq_conjugated {B : Quat} (hB : B.normSq = 1) : B.inv = B.conjugated := by
  unfold Quat.inv Quat.conjugated
  rw [hB]
  simp

theorem importVmdBoneLoop_ok (m : List (String × String)) :
    ∀ (k : Nat) (ofs : ByteStream) (obj : Armature) (offset fe : ℤ)
      (out : ByteStream × Armature × ℤ),
      importVmdBoneLoop m k ofs obj offset fe = .ok out →
      out.1 = ofs.seek (boneRecordSize * k) ∧
      out.2.2 = maxFrameFold offset fe ((boneRecordsFrom k ofs).map BoneRecord.frame) := by
  intro k
  induction k with
  | zero =>
    intro ofs obj offset fe out h
    rw [importVmdBoneLoop] at h
    obtain rfl := Except.ok.inj h
    exact ⟨by rw [Nat.mul_zero, seek_zero], rfl⟩
  | succ k ih =>
    intro ofs obj offset fe out h
    rw [importVmdBoneLoop] at h
    cases hr : readPacked ofs boneRecordSize with
    | error e =>
      simp only [hr] at h
      exact Except.noConfusion h
    | ok p =>
      obtain ⟨b, ofs'⟩ := p
      simp only [hr] at h
      obtain ⟨hav, hp⟩ := readPacked_eq_ok.mp hr
      injection hp with hb ho
      cases hv : vmdStr (unpackBone b).name with
      | error e =>
        simp only [hv] at h
        exact Except.noConfusion h
      | ok name0 =>
        simp only [hv] at h
        obtain ⟨hos, hfe⟩ := ih _ _ _ _ _ h
        subst ho
        refine ⟨?_, ?_⟩
        · rw [hos, seek_seek]
          congr 1
          ring
        · rw [hfe, boneRecordsFrom, ← hb, List.map_cons, maxFrameFold_cons]

theorem importVmdFaceLoop_ok (m : List (String × String)) :
    ∀ (k : Nat) (ofs : ByteStream) (obj : FaceObj) (offset fe : ℤ)
      (out : ByteStream × FaceObj × ℤ),
      importVmdFaceLoop m k ofs obj offset fe = .ok out →
      out.1 = ofs.seek (faceRecordSize * k) ∧
      out.2.2 = maxFrameFold offset fe ((faceRecordsFrom k ofs).map FaceRecord.frame) := by
  intro k
  induction k with
  | zero =>
    intro ofs obj offset fe out h
    rw [importVmdFaceLoop] at h
    obtain rfl := Except.ok.inj h
    exact ⟨by rw [Nat.mul_zero, seek_zero], rfl⟩
  | succ k ih =>
    intro ofs obj offset fe out h
    rw [importVmdFaceLoop] at h
    cases hr : readPacked ofs faceRecordSize with
    | error e =>
      simp only [hr] at h
      exact Except.noConfusion h
    | ok p =>
      obtain ⟨b, ofs'⟩ := p
      simp only [hr] at h
      obtain ⟨hav, hp⟩ := readPacked_eq_ok.mp hr
      injection hp with hb ho
      cases hv : vmdStr (unpackFace b).name with
      | error e =>
        simp only [hv] at h
        exact Except.noConfusion h
      | ok name0 =>
        simp only [hv] at h
        obtain ⟨hos, hfe⟩ := ih _ _ _ _ _ h
        subst ho
        refine ⟨?_, ?_⟩
        · rw [hos, seek_seek]
          congr 1
          ring
        · rw [hfe, faceRecordsFrom, ← hb, List.map_cons, maxFrameFold_cons]

theorem resolvedBoneName_eq {m : List (String × String)} {r : BoneRecord} {name0 : String}
    (hv : vmdStr r.name = .ok name0) :
    resolvedBoneName m r = some (dictGet m name0 name0) := by
  rw [resolvedBoneName, hv]

theorem resolvedFaceName_eq {m : List (String × String)} {r : FaceRecord} {name0 : String}
    (hv : vmdStr r.name = .ok name0) :
    resolvedFaceName m r = some (dictGet m name0 name0) := by
  rw [resolvedFaceName, hv]

theorem importVmdBoneLoop_state (m : List (String × String)) :
    ∀ (k : Nat) (ofs : ByteStream) (obj : Armature) (offset fe : ℤ)
      (out : ByteStream × Armature × ℤ),
      importVmdBoneLoop m k ofs obj offset fe = .ok out →
      ∀ (n : String) (B : Quat) (pb : PoseBone),
        lookupBone obj.bones n = some (B, pb) →
        lookupBone out.2.1.bones n = some (B,
          match lastMatchedBone m n (boneRecordsFrom k ofs) with
          | some r => bonePoseOfRecord B r
          | none => pb) := by
  intro k
  induction k with
  | zero =>
    intro ofs obj offset fe out h n B pb hn
    rw [importVmdBoneLoop] at h
    obtain rfl := Except.ok.inj h
    exact hn
  | succ k ih =>
    intro ofs obj offset fe out h n B pb hn
    rw [importVmdBoneLoop] at h
    cases hr : readPacked ofs boneRecordSize with
    | error e =>
      simp only [hr] at h
      exact Except.noConfusion h
    | ok p =>
      obtain ⟨b, ofs'⟩ := p
      simp only [hr] at h
      obtain ⟨hav, hp⟩ := readPacked_eq_ok.mp hr
      injection hp with hb ho
      cases hv : vmdStr (unpackBone b).name with
      | error e =>
        simp only [hv] at h
        exact Except.noConfusion h
      | ok name0 =>
        simp only [hv] at h
        have hres := ih _ _ _ _ _ h n B
          (if dictGet m name0 name0 = n then bonePoseOfRecord B (unpackBone b) else pb)
          (boneWrite_lookup hn)
        rw [boneRecordsFrom, ← hb, ← ho, lastMatchedBone]
        cases hlast : lastMatchedBone m n (boneRecordsFrom k ofs') with
        | some r' =>
          rw [hlast] at hres
          simp only [hlast]
          exact hres
        | none =>
          rw [hlast] at hres
          simp only [hlast, resolvedBoneName_eq hv]
          by_cases hnn : dictGet m name0 name0 = n
          · rw [if_pos hnn] at hres
            rw [if_pos (by rw [hnn])]
            exact hres
          · rw [if_neg hnn] at hres
            rw [if_neg (by simpa using hnn)]
            exact hres

theorem importVmdFaceLoop_state (m : List (String × String)) :
    ∀ (k : Nat) (ofs : ByteStream) (obj : FaceObj) (offset fe : ℤ)
      (out : ByteStream × FaceObj × ℤ),
      importVmdFaceLoop m k ofs obj offset fe = .ok out →
      ∀ (n : String) (v : ℚ),
        lookupBlock obj.key_blocks n = some v →
        lookupBlock out.2.1.key_blocks n = some
          (match lastMatchedFace m n (faceRecordsFrom k ofs) with
           | some r => r.value
           | none => v) := by
  intro k
  induction k with
  | zero =>
    intro ofs obj offset fe out h n v hn
    rw [importVmdFaceLoop] at h
    obtain rfl := Except.ok.inj h
    exact hn
  | succ k ih =>
    intro ofs obj offset fe out h n v hn
    rw [importVmdFaceLoop] at h
    cases hr : readPacked ofs faceRecordSize with
    | error e =>
      simp only [hr] at h
      exact Except.noConfusion h
    | ok p =>
      obtain ⟨b, ofs'⟩ := p
      simp only [hr] at h
      obtain ⟨hav, hp⟩ := readPacked_eq_ok.mp hr
      injection hp with hb ho
      cases hv : vmdStr (unpackFace b).name with
      | error e =>
        simp only [hv] at h
        exact Except.noConfusion h
      | ok name0 =>
        simp only [hv] at h
        have hres := ih _ _ _ _ _ h n
          (if dictGet m name0 name0 = n then (unpackFace b).value else v)
          (faceWrite_lookup hn)
        rw [faceRecordsFrom, ← hb, ← ho, lastMatchedFace]
        cases hlast : lastMatchedFace m n (faceRecordsFrom k ofs') with
        | some r' =>
          rw [hlast] at hres
          simp only [hlast]
          exact hres
        | none =>
          rw [hlast] at hres
          simp only [hlast, resolvedFaceName_eq hv]
          by_cases hnn : dictGet m name0 name0 = n
          · rw [if_pos hnn] at hres
            rw [if_pos (by rw [hnn])]
            exact hres
          · rw [if_neg hnn] at hres
            rw [if_neg (by simpa using hnn)]
            exact hres

theorem skipVmdBone_ok (ofs : ByteStream) (h : 4 ≤ ofs.data.length - ofs.pos) :
    skipVmdBone ofs =
      .ok ⟨ofs.data, ofs.pos + 4 + boneRecordSize * leU32 ((ofs.data.drop ofs.pos).take 4)⟩ := by
  have hr : readPacked ofs 4 = .ok ((ofs.data.drop ofs.pos).take 4, ofs.seek 4) :=
    readPacked_eq_ok.mpr ⟨h, rfl⟩
  rw [skipVmdBone]
  simp only [hr]
  simp [ByteStream.seek, Nat.add_assoc]

theorem skipVmdFace_ok (ofs : ByteStream) (h : 4 ≤ ofs.data.length - ofs.pos) :
    skipVmdFace ofs =
      .ok ⟨ofs.data, ofs.pos + 4 + faceRecordSize * leU32 ((ofs.data.drop ofs.pos).take 4)⟩ := by
  have hr : readPacked ofs 4 = .ok ((ofs.data.drop ofs.pos).take 4, ofs.seek 4) :=
    readPacked_eq_ok.mpr ⟨h, rfl⟩
  rw [skipVmdFace]
  simp only [hr]
  simp [ByteStream.seek, Nat.add_assoc]

theorem skipVmdBone_err (ofs : ByteStream) (h : ofs.data.length - ofs.pos < 4) :
    skipVmdBone ofs = .error .truncated := by
  rw [skipVmdBone]
  simp only [readPacked_eq_error h]

theorem skipVmdFace_err (ofs : ByteStream) (h : ofs.data.length - ofs.pos < 4) :
    skipVmdFace ofs = .error .truncated := by
  rw [skipVmdFace]
  simp only [readPacked_eq_error h]

/-- A bone section of one record followed by 111 bytes, for exercising the
skip path. -/
def testSkipBoneStream : ByteStream := ⟨u32le 1 ++ List.replicate 111 0, 0⟩

/-- A face section of one record followed by 23 bytes, for exercising the
skip path. -/
def testSkipFaceStream : ByteStream := ⟨u32le 1 ++ List.replicate 23 0, 0⟩

/-- C1: with at least the 4 count bytes available, `skipVmdBone` reads the
32-bit record count and advances the stream by exactly `recordCount × 111`
bytes (`struct.calcsize("< 15s I 3f 4f 64s")`), and `skipVmdFace` reads
its count and advances by `recordCount × 23` bytes
(`struct.calcsize("< 15s I f")`), leaving the position at the start of the
next section.  (The claim's byte counts 91 and 19 are wrong; see the
counterexample.) -/
theorem skipVmd_byte_counts (ofs : ByteStream) (h : 4 ≤ ofs.data.length - ofs.pos) :
    skipVmdBone ofs =
      .ok ⟨ofs.data, ofs.pos + 4 + boneRecordSize * leU32 ((ofs.data.drop ofs.pos).take 4)⟩ ∧
    skipVmdFace ofs =
      .ok ⟨ofs.data, ofs.pos + 4 + faceRecordSize * leU32 ((ofs.data.drop ofs.pos).take 4)⟩ ∧
    boneRecordSize = 111 ∧ faceRecordSize = 23 :=
  ⟨skipVmdBone_ok ofs h, skipVmdFace_ok ofs h, rfl, rfl⟩

/-- C1 witness: the byte-count theorem applied to a concrete one-record
bone section. -/
theorem skipVmd_byte_counts_witness :
    4 ≤ testSkipBoneStream.data.length - testSkipBoneStream.pos ∧
    (skipVmdBone testSkipBoneStream =
      .ok ⟨testSkipBoneStream.data, testSkipBoneStream.pos + 4 +
        boneRecordSize * leU32 ((testSkipBoneStream.data.drop testSkipBoneStream.pos).take 4)⟩ ∧
    skipVmdFace testSkipBoneStream =
      .ok ⟨testSkipBoneStream.data, testSkipBoneStream.pos + 4 +
        faceRecordSize * leU32 ((testSkipBoneStream.data.drop testSkipBoneStream.pos).take 4)⟩ ∧
    boneRecordSize = 111 ∧ faceRecordSize = 23) :=
  ⟨by decide, skipVmd_byte_counts testSkipBoneStream (by decide)⟩

/-- C1 counterexample: on a one-record bone section the skip path lands at
position 4 + 111, not 4 + 91; on a one-record face section it lands at
4 + 23, not 4 + 19. -/
theorem skipVmd_byte_counts_cex :
    skipVmdBone testSkipBoneStream ≠ .ok ⟨testSkipBoneStream.data, 4 + 91 * 1⟩ ∧
    skipVmdBone testSkipBoneStream = .ok ⟨testSkipBoneStream.data, 4 + 111 * 1⟩ ∧
    skipVmdFace testSkipFaceStream ≠ .ok ⟨testSkipFaceStream.data, 4 + 19 * 1⟩ ∧
    skipVmdFace testSkipFaceStream = .ok ⟨testSkipFaceStream.data, 4 + 23 * 1⟩ := by
  decide

/-- C9: the skip paths never detect truncation.  Once the 4 count bytes
are read, `skipVmdBone` and `skipVmdFace` succeed by a relative seek even
when the resulting position lies past the end of the data; only the 4-byte
count read itself can fail, with `struct.error`. -/
theorem skipVmd_no_truncation :
    (∀ (ofs : ByteStream) (n : Nat),
        n = leU32 ((ofs.data.drop ofs.pos).take 4) →
        4 ≤ ofs.data.length - ofs.pos →
        ofs.data.length < ofs.pos + 4 + boneRecordSize * n →
        skipVmdBone ofs = .ok ⟨ofs.data, ofs.pos + 4 + boneRecordSize * n⟩) ∧
    (∀ (ofs : ByteStream) (n : Nat),
        n = leU32 ((ofs.data.drop ofs.pos).take 4) →
        4 ≤ ofs.data.length - ofs.pos →
        ofs.data.length < ofs.pos + 4 + faceRecordSize * n →
        skipVmdFace ofs = .ok ⟨ofs.data, ofs.pos + 4 + faceRecordSize * n⟩) ∧
    (∀ ofs : ByteStream, ofs.data.length - ofs.pos < 4 →
        skipVmdBone ofs = .error .truncated ∧ skipVmdFace ofs = .error .truncated) := by
  refine ⟨?_, ?_, ?_⟩
  · intro ofs n hn h4 _
    subst hn
    exact skipVmdBone_ok ofs h4
  · intro ofs n hn h4 _
    subst hn
    exact skipVmdFace_ok ofs h4
  · intro ofs h4
    exact ⟨skipVmdBone_err ofs h4, skipVmdFace_err ofs h4⟩

/-- C9 witness: a bone section declaring 5 records with no record bytes at
all is consumed without error, and a 2-byte stream fails already at the
count read. -/
theorem skipVmd_no_truncation_witness :
    (ByteStream.mk (u32le 5) 0).data.length < 0 + 4 + boneRecordSize * 5 ∧
    skipVmdBone ⟨u32le 5, 0⟩ = .ok ⟨u32le 5, 0 + 4 + boneRecordSize * 5⟩ ∧
    skipVmdFace ⟨u32le 5, 0⟩ = .ok ⟨u32le 5, 0 + 4 + faceRecordSize * 5⟩ ∧
    (skipVmdBone ⟨[1, 2], 0⟩ = .error .truncated ∧
     skipVmdFace ⟨[1, 2], 0⟩ = .error .truncated) :=
  ⟨by decide,
   skipVmd_no_truncation.1 ⟨u32le 5, 0⟩ 5 (by decide) (by decide) (by decide),
   skipVmd_no_truncation.2.1 ⟨u32le 5, 0⟩ 5 (by decide) (by decide) (by decide),
   skipVmd_no_truncation.2.2 ⟨[1, 2], 0⟩ (by decide)⟩

/-- C3: for a matched bone record, the rotation written to the pose bone
and to the inserted keyframe is B⁻¹ · Q · B, where B is the bone's
rest-pose local rotation (assumed of unit norm, as a rotation quaternion
is) and Q is the quaternion with (w, x, y, z) components
(rw, -rx, -rz, -ry) built from the record's raw components. -/
theorem boneWrite_rotation (obj : Armature) (name : String) (frame : ℤ) (r : BoneRecord)
    (B : Quat) (pb : PoseBone) (h : lookupBone obj.bones name = some (B, pb))
    (hB : B.normSq = 1) :
    lookupBone (boneWrite obj name frame r).bones name =
      some (B, ⟨(r.tx, r.tz, r.ty), (B.inv.mul (quatOfRecord r)).mul B⟩) ∧
    (boneWrite obj name frame r).keyframes =
      obj.keyframes ++
        [.location name frame (r.tx, r.tz, r.ty),
         .rotation_quaternion name frame ((B.inv.mul (quatOfRecord r)).mul B)] := by
  have hc : (B.inv.mul (quatOfRecord r)).mul B = (B.conjugated.mul (quatOfRecord r)).mul B := by
    rw [Quat.inv_eq_conjugated hB]
  constructor
  · have h2 : lookupBone (boneWrite obj name frame r).bones name =
        some (B, if name = name then bonePoseOfRecord B r else pb) := boneWrite_lookup h
    rw [h2, if_pos rfl, hc]
    rfl
  · rw [boneWrite, h, hc]
    rfl

/-- C3 witness: the rotation theorem applied to the spec's own scenario, a
bone named "a" with identity rest rotation and a record with translation
(1, 2, 3) and rotation components (0, 0, 0, 1). -/
theorem boneWrite_rotation_witness :
    lookupBone [("a", ⟨1, 0, 0, 0⟩, ⟨(0, 0, 0), ⟨1, 0, 0, 0⟩⟩)] ("a") =
      some (⟨1, 0, 0, 0⟩, ⟨(0, 0, 0), ⟨1, 0, 0, 0⟩⟩) ∧
    Quat.normSq ⟨1, 0, 0, 0⟩ = 1 ∧
    (lookupBone (boneWrite ⟨[("a", ⟨1, 0, 0, 0⟩, ⟨(0, 0, 0), ⟨1, 0, 0, 0⟩⟩)], []⟩ ("a") 3
        ⟨[0], 10, 1, 2, 3, 0, 0, 0, 1, []⟩).bones ("a") =
      some (⟨1, 0, 0, 0⟩, ⟨(1, 3, 2),
        ((Quat.inv ⟨1, 0, 0, 0⟩).mul (quatOfRecord ⟨[0], 10, 1, 2, 3, 0, 0, 0, 1, []⟩)).mul
          ⟨1, 0, 0, 0⟩⟩) ∧
    (boneWrite ⟨[("a", ⟨1, 0, 0, 0⟩, ⟨(0, 0, 0), ⟨1, 0, 0, 0⟩⟩)], []⟩ ("a") 3
        ⟨[0], 10, 1, 2, 3, 0, 0, 0, 1, []⟩).keyframes =
      [] ++
        [.location ("a") 3 (1, 3, 2),
         .rotation_quaternion ("a") 3
           (((Quat.inv ⟨1, 0, 0, 0⟩).mul (quatOfRecord ⟨[0], 10, 1, 2, 3, 0, 0, 0, 1, []⟩)).mul
             ⟨1, 0, 0, 0⟩)]) :=
  ⟨by decide, by norm_num [Quat.normSq],
   boneWrite_rotation ⟨[("a", ⟨1, 0, 0, 0⟩, ⟨(0, 0, 0), ⟨1, 0, 0, 0⟩⟩)], []⟩ ("a") 3
     ⟨[0], 10, 1, 2, 3, 0, 0, 0, 1, []⟩ ⟨1, 0, 0, 0⟩ ⟨(0, 0, 0), ⟨1, 0, 0, 0⟩⟩
     (by decide) (by norm_num [Quat.normSq])⟩

/-- C4: for a matched bone record with file translation (tx, ty, tz), the
pose state written to the target carries the axis-swapped location
(tx, tz, ty): target X = file X, target Y = file Z, target Z = file Y. -/
theorem boneWrite_translation (obj : Armature) (name : String) (frame : ℤ) (r : BoneRecord)
    (B : Quat) (pb : PoseBone) (h : lookupBone obj.bones name = some (B, pb)) :
    lookupBone (boneWrite obj name frame r).bones name = some (B, bonePoseOfRecord B r) ∧
    (bonePoseOfRecord B r).location = (r.tx, r.tz, r.ty) := by
  constructor
  · have h2 : lookupBone (boneWrite obj name frame r).bones name =
        some (B, if name = name then bonePoseOfRecord B r else pb) := boneWrite_lookup h
    rw [h2, if_pos rfl]
  · rfl

/-- C4 witness: the translation theorem applied to a record with
translation (1, 2, 3), written as target-space (1, 3, 2). -/
theorem boneWrite_translation_witness :
    lookupBone [("a", ⟨1, 0, 0, 0⟩, ⟨(0, 0, 0), ⟨1, 0, 0, 0⟩⟩)] ("a") =
      some (⟨1, 0, 0, 0⟩, ⟨(0, 0, 0), ⟨1, 0, 0, 0⟩⟩) ∧
    (lookupBone (boneWrite ⟨[("a", ⟨1, 0, 0, 0⟩, ⟨(0, 0, 0), ⟨1, 0, 0, 0⟩⟩)], []⟩ ("a") 3
        ⟨[0], 10, 1, 2, 3, 0, 0, 0, 1, []⟩).bones ("a") =
      some (⟨1, 0, 0, 0⟩, bonePoseOfRecord ⟨1, 0, 0, 0⟩ ⟨[0], 10, 1, 2, 3, 0, 0, 0, 1, []⟩) ∧
    (bonePoseOfRecord ⟨1, 0, 0, 0⟩ ⟨[0], 10, 1, 2, 3, 0, 0, 0, 1, []⟩).location = (1, 3, 2)) :=
  ⟨by decide,
   boneWrite_translation ⟨[("a", ⟨1, 0, 0, 0⟩, ⟨(0, 0, 0), ⟨1, 0, 0, 0⟩⟩)], []⟩ ("a") 3
     ⟨[0], 10, 1, 2, 3, 0, 0, 0, 1, []⟩ ⟨1, 0, 0, 0⟩ ⟨(0, 0, 0), ⟨1, 0, 0, 0⟩⟩ (by decide)⟩

/-- C10: decoding mutates the target's live state in addition to logging
keyframes: after a bone (resp. face) section is decoded, the pose state of
each bone and the value of each shape key equal the transformed values of
the last record that resolved to that name, or the initial state when no
record matched it. -/
theorem import_state_mutation :
    (∀ (m : List (String × String)) (ofs : ByteStream) (obj : Armature) (offset : ℤ)
        (out : ByteStream × Armature × ℤ),
        importVmdBone m ofs obj offset = .ok out →
        ∀ (n : String) (B : Quat) (pb : PoseBone),
          lookupBone obj.bones n = some (B, pb) →
          lookupBone out.2.1.bones n = some (B,
            match lastMatchedBone m n
                (boneRecordsFrom (leU32 ((ofs.data.drop ofs.pos).take 4)) (ofs.seek 4)) with
            | some r => bonePoseOfRecord B r
            | none => pb)) ∧
    (∀ (m : List (String × String)) (ofs : ByteStream) (obj : FaceObj) (offset : ℤ)
        (out : ByteStream × FaceObj × ℤ),
        importVmdFace m ofs obj offset = .ok out →
        ∀ (n : String) (v : ℚ),
          lookupBlock obj.key_blocks n = some v →
          lookupBlock out.2.1.key_blocks n = some
            (match lastMatchedFace m n
                (faceRecordsFrom (leU32 ((ofs.data.drop ofs.pos).take 4)) (ofs.seek 4)) with
             | some r => r.value
             | none => v)) := by
  constructor
  · intro m ofs obj offset out h n B pb hn
    rw [importVmdBone] at h
    cases hr : readPacked ofs 4 with
    | error e =>
      simp only [hr] at h
      exact Except.noConfusion h
    | ok p =>
      obtain ⟨b, ofs'⟩ := p
      simp only [hr] at h
      obtain ⟨hav, hp⟩ := readPacked_eq_ok.mp hr
      injection hp with hb ho
      subst hb
      subst ho
      exact importVmdBoneLoop_state m _ _ _ _ _ _ h n B pb hn
  · intro m ofs obj offset out h n v hn
    rw [importVmdFace] at h
    cases hr : readPacked ofs 4 with
    | error e =>
      simp only [hr] at h
      exact Except.noConfusion h
    | ok p =>
      obtain ⟨b, ofs'⟩ := p
      simp only [hr] at h
      obtain ⟨hav, hp⟩ := readPacked_eq_ok.mp hr
      injection hp with hb ho
      subst hb
      subst ho
      exact importVmdFaceLoop_state m _ _ _ _ _ _ h n v hn

/-- A face record whose name is "a", frame is 4 and value is 1.0f. -/
def testFaceRec : List Nat :=
  [0x61] ++ List.replicate 14 0 ++ u32le 4 ++ [0, 0, 128, 63]

/-- C10 witness: the state-mutation theorem applied to a one-record bone
section and a one-record face section, both matching a bound name "a". -/
theorem import_state_mutation_witness :
    importVmdBone [] ⟨u32le 1 ++ testBoneRec, 0⟩
        ⟨[("a", ⟨1, 0, 0, 0⟩, ⟨(0, 0, 0), ⟨1, 0, 0, 0⟩⟩)], []⟩ 0 =
      .ok (⟨u32le 1 ++ testBoneRec, 115⟩,
        ⟨[("a", ⟨1, 0, 0, 0⟩, ⟨(0, 0, 0), ⟨0, 0, 0, 0⟩⟩)],
         [.location ("a") 7 (0, 0, 0), .rotation_quaternion ("a") 7 ⟨0, 0, 0, 0⟩]⟩, 7) ∧
    importVmdFace [] ⟨u32le 1 ++ testFaceRec, 0⟩ ⟨[("a", 0)], []⟩ 0 =
      .ok (⟨u32le 1 ++ testFaceRec, 27⟩, ⟨[("a", 1)], [(("a" : String), (4 : ℤ), (1 : ℚ))]⟩, 4) ∧
    lookupBone [("a", ⟨1, 0, 0, 0⟩, ⟨(0, 0, 0), ⟨0, 0, 0, 0⟩⟩)] ("a") =
      some (⟨1, 0, 0, 0⟩, ⟨(0, 0, 0), ⟨0, 0, 0, 0⟩⟩) ∧
    lookupBlock [("a", (1 : ℚ))] ("a") = some 1 := by
  refine ⟨by with_unfolding_all decide, by with_unfolding_all decide, ?_, ?_⟩
  · have h := import_state_mutation.1 [] ⟨u32le 1 ++ testBoneRec, 0⟩
      ⟨[("a", ⟨1, 0, 0, 0⟩, ⟨(0, 0, 0), ⟨1, 0, 0, 0⟩⟩)], []⟩ 0
      (⟨u32le 1 ++ testBoneRec, 115⟩,
        ⟨[("a", ⟨1, 0, 0, 0⟩, ⟨(0, 0, 0), ⟨0, 0, 0, 0⟩⟩)],
         [.location ("a") 7 (0, 0, 0), .rotation_quaternion ("a") 7 ⟨0, 0, 0, 0⟩]⟩, 7)
      (by with_unfolding_all decide) ("a") ⟨1, 0, 0, 0⟩ ⟨(0, 0, 0), ⟨1, 0, 0, 0⟩⟩
      (by with_unfolding_all decide)
    refine h.trans ?_
    with_unfolding_all decide
  · have h := import_state_mutation.2 [] ⟨u32le 1 ++ testFaceRec, 0⟩ ⟨[("a", 0)], []⟩ 0
      (⟨u32le 1 ++ testFaceRec, 27⟩, ⟨[("a", 1)], [(("a" : String), (4 : ℤ), (1 : ℚ))]⟩, 4)
      (by with_unfolding_all decide) ("a") 0 (by with_unfolding_all decide)
    refine h.trans ?_
    with_unfolding_all decide

/-- C6: whenever the 50-byte header is readable and the decoded 30-byte
magic field does not start with "Vocaloid Motion Data", `importVmd` fails
with the header error before any record is touched: the result is the
error for every choice of targets, offset and scene state, so no keyframe
is written anywhere. -/
theorem importVmd_bad_magic (bm fm : List (String × String)) (ofs : ByteStream) (magic : String)
    (h50 : 50 ≤ ofs.data.length - ofs.pos)
    (hm : vmdStr ((ofs.data.drop ofs.pos).take 30) = .ok magic)
    (hbad : startswith magic ("Vocaloid Motion Data") = false) :
    ∀ (bone : Option Armature) (face : Option FaceObj) (offset frame_end : ℤ),
      importVmd bm fm ofs bone face offset frame_end = .error .invalidHeader := by
  intro bone face offset frame_end
  have hH : readPacked ofs (30 + 20) = .ok ((ofs.data.drop ofs.pos).take 50, ofs.seek 50) :=
    readPacked_eq_ok.mpr ⟨h50, rfl⟩
  have ht : ((ofs.data.drop ofs.pos).take 50).take 30 = (ofs.data.drop ofs.pos).take 30 := by
    rw [List.take_take]
    norm_num
  rw [importVmd]
  simp only [hH, ht, hm, hbad, Bool.false_eq_true, if_false]

/-- A stream whose magic field is "NOT VMD" padded to 30 bytes. -/
def testVmdBadMagic : ByteStream :=
  ⟨asciiBytes ("NOT VMD") ++ List.replicate 23 0 ++ List.replicate 20 0 ++ u32le 0 ++ u32le 0, 0⟩

/-- C6 witness: the bad-magic theorem applied to the "NOT VMD" stream with
bound targets. -/
theorem importVmd_bad_magic_witness :
    50 ≤ testVmdBadMagic.data.length - testVmdBadMagic.pos ∧
    vmdStr ((testVmdBadMagic.data.drop testVmdBadMagic.pos).take 30) = .ok ("NOT VMD") ∧
    startswith ("NOT VMD") ("Vocaloid Motion Data") = false ∧
    importVmd [] [] testVmdBadMagic (some ⟨[], []⟩) (some ⟨[], []⟩) 0 0 =
      .error .invalidHeader :=
  ⟨by decide, by decide, by decide,
   importVmd_bad_magic [] [] testVmdBadMagic ("NOT VMD") (by decide) (by decide) (by decide)
     (some ⟨[], []⟩) (some ⟨[], []⟩) 0 0⟩

/-- C5: each decoder returns the fold of `max` over `record frame +
frameOffset` for every record of its section (matched or not), starting
from `frameOffset`; and when both targets are unbound the decoders
contribute exactly `frameOffset`, so the updated scene frame end is
`max frameOffset previousFrameEnd`. -/
theorem decoder_max_frame :
    (∀ (m : List (String × String)) (ofs : ByteStream) (obj : Armature) (offset : ℤ)
        (out : ByteStream × Armature × ℤ),
        importVmdBone m ofs obj offset = .ok out →
        out.2.2 = maxFrameFold offset offset
          ((boneRecordsFrom (leU32 ((ofs.data.drop ofs.pos).take 4)) (ofs.seek 4)).map
            BoneRecord.frame)) ∧
    (∀ (m : List (String × String)) (ofs : ByteStream) (obj : FaceObj) (offset : ℤ)
        (out : ByteStream × FaceObj × ℤ),
        importVmdFace m ofs obj offset = .ok out →
        out.2.2 = maxFrameFold offset offset
          ((faceRecordsFrom (leU32 ((ofs.data.drop ofs.pos).take 4)) (ofs.seek 4)).map
            FaceRecord.frame)) ∧
    (∀ (bm fm : List (String × String)) (ofs : ByteStream) (offset frame_end : ℤ)
        (out : Option Armature × Option FaceObj × ℤ × ByteStream),
        importVmd bm fm ofs none none offset frame_end = .ok out →
        out.2.2.1 = max offset frame_end) := by
  refine ⟨?_, ?_, ?_⟩
  · intro m ofs obj offset out h
    rw [importVmdBone] at h
    cases hr : readPacked ofs 4 with
    | error e =>
      simp only [hr] at h
      exact Except.noConfusion h
    | ok p =>
      obtain ⟨b, ofs'⟩ := p
      simp only [hr] at h
      obtain ⟨hav, hp⟩ := readPacked_eq_ok.mp hr
      injection hp with hb ho
      subst hb
      subst ho
      exact (importVmdBoneLoop_ok m _ _ _ _ _ _ h).2
  · intro m ofs obj offset out h
    rw [importVmdFace] at h
    cases hr : readPacked ofs 4 with
    | error e =>
      simp only [hr] at h
      exact Except.noConfusion h
    | ok p =>
      obtain ⟨b, ofs'⟩ := p
      simp only [hr] at h
      obtain ⟨hav, hp⟩ := readPacked_eq_ok.mp hr
      injection hp with hb ho
      subst hb
      subst ho
      exact (importVmdFaceLoop_ok m _ _ _ _ _ _ h).2
  · intro bm fm ofs offset frame_end out h
    rw [importVmd] at h
    cases hH : readPacked ofs (30 + 20) with
    | error e =>
      simp only [hH] at h
      exact Except.noConfusion h
    | ok p =>
      obtain ⟨b, ofs1⟩ := p
      simp only [hH] at h
      cases hm : vmdStr (b.take 30) with
      | error e =>
        simp only [hm] at h
        exact Except.noConfusion h
      | ok magic =>
        simp only [hm] at h
        cases hs : startswith magic ("Vocaloid Motion Data") with
        | false =>
          simp only [hs, Bool.false_eq_true, if_false] at h
          exact Except.noConfusion h
        | true =>
          simp only [hs, if_true] at h
          cases hsb : skipVmdBone ofs1 with
          | error e =>
            simp only [hsb, Except.map] at h
            exact Except.noConfusion h
          | ok ofs2 =>
            simp only [hsb, Except.map] at h
            cases hsf : skipVmdFace ofs2 with
            | error e =>
              simp only [hsf, Except.map] at h
              exact Except.noConfusion h
            | ok ofs3 =>
              simp only [hsf, Except.map] at h
              obtain rfl := Except.ok.inj h
              simp [max_self]

/-- C5 witness: the bone part of the fold theorem applied to a one-record
section with offset 5: the decoder returns max(5, 7 + 5) = 12. -/
theorem decoder_max_frame_witness :
    importVmdBone [] ⟨u32le 1 ++ testBoneRec, 0⟩ ⟨[], []⟩ 5 =
      .ok (⟨u32le 1 ++ testBoneRec, 115⟩, ⟨[], []⟩, 12) ∧
    (12 : ℤ) = maxFrameFold 5 5
      ((boneRecordsFrom
          (leU32 (((ByteStream.mk (u32le 1 ++ testBoneRec) 0).data.drop
            (ByteStream.mk (u32le 1 ++ testBoneRec) 0).pos).take 4))
          ((ByteStream.mk (u32le 1 ++ testBoneRec) 0).seek 4)).map BoneRecord.frame) ∧
    importVmd [] [] testVmd1 none none 7 2 = .ok (none, none, 7, ⟨testVmd1.data, 169⟩) ∧
    (7 : ℤ) = max 7 2 := by
  refine ⟨by decide, ?_, by decide, by decide⟩
  exact decoder_max_frame.1 [] ⟨u32le 1 ++ testBoneRec, 0⟩ ⟨[], []⟩ 5
    (⟨u32le 1 ++ testBoneRec, 115⟩, ⟨[], []⟩, 12) (by decide)

/-- C2 (amended): with frameOffset 0, previous scene frame end 0 and both
a bone target and a morph target bound, a successful `importVmd` computes
a non-negative value equal to the maximum of all `frame` fields across the
bone and morph sections (0 for a file with no records).  (When a target is
unbound its section contributes only the offset, so the claim's
"regardless of whether targets are bound" fails; see the
counterexample.) -/
theorem importVmd_max_frame_bound (bm fm : List (String × String)) (ofs : ByteStream)
    (a : Armature) (f : FaceObj) (out : Option Armature × Option FaceObj × ℤ × ByteStream)
    (h : importVmd bm fm ofs (some a) (some f) 0 0 = .ok out) :
    out.2.2.1 = maxFrameFold 0 0 (vmdAllFrames ofs) ∧ 0 ≤ out.2.2.1 := by
  rw [importVmd] at h
  cases hH : readPacked ofs (30 + 20) with
  | error e =>
    simp only [hH] at h
    exact Except.noConfusion h
  | ok p =>
    obtain ⟨b, ofs1⟩ := p
    simp only [hH] at h
    obtain ⟨hav, hp⟩ := readPacked_eq_ok.mp hH
    injection hp with hb ho
    subst hb
    subst ho
    cases hm : vmdStr (((ofs.data.drop ofs.pos).take 50).take 30) with
    | error e =>
      simp only [hm] at h
      exact Except.noConfusion h
    | ok magic =>
      simp only [hm] at h
      cases hs : startswith magic ("Vocaloid Motion Data") with
      | false =>
        simp only [hs, Bool.false_eq_true, if_false] at h
        exact Except.noConfusion h
      | true =>
        simp only [hs, if_true] at h
        cases hbone : importVmdBone bm (ofs.seek 50) a 0 with
        | error e =>
          simp only [hbone, Except.map] at h
          exact Except.noConfusion h
        | ok q =>
          obtain ⟨ofs2, a2, fe0⟩ := q
          simp only [hbone, Except.map] at h
          rw [importVmdBone] at hbone
          cases hc : readPacked (ofs.seek 50) 4 with
          | error e =>
            simp only [hc] at hbone
            exact Except.noConfusion hbone
          | ok pc =>
            obtain ⟨cb, ofsc⟩ := pc
            simp only [hc] at hbone
            obtain ⟨havc, hpc⟩ := readPacked_eq_ok.mp hc
            injection hpc with hcb hoc
            subst hcb
            subst hoc
            obtain ⟨hos2, hfe0⟩ := importVmdBoneLoop_ok bm _ _ _ _ _ _ hbone
            cases hface : importVmdFace fm ofs2 f 0 with
            | error e =>
              simp only [hface, Except.map] at h
              exact Except.noConfusion h
            | ok q2 =>
              obtain ⟨ofs3, f2, fe1⟩ := q2
              simp only [hface, Except.map] at h
              rw [importVmdFace] at hface
              cases hc2 : readPacked ofs2 4 with
              | error e =>
                simp only [hc2] at hface
                exact Except.noConfusion hface
              | ok pc2 =>
                obtain ⟨cb2, ofsc2⟩ := pc2
                simp only [hc2] at hface
                obtain ⟨havc2, hpc2⟩ := readPacked_eq_ok.mp hc2
                injection hpc2 with hcb2 hoc2
                subst hcb2
                subst hoc2
                obtain ⟨hos3, hfe1⟩ := importVmdFaceLoop_ok fm _ _ _ _ _ _ hface
                obtain rfl := Except.ok.inj h
                subst hos2
                simp only [seek_seek, ByteStream.seek] at hfe0 hfe1 ⊢
                rw [vmdAllFrames]
                rw [maxFrameFold_append]
                have h0 : (0 : ℤ) ≤ fe0 := by
                  rw [hfe0]
                  exact le_maxFrameFold 0 _ 0
                constructor
                · show max (max fe0 fe1) 0 = _
                  calc max (max fe0 fe1) 0
                      = max fe0 fe1 := max_eq_left (le_trans h0 (le_max_left fe0 fe1))
                    _ = max fe0 (maxFrameFold 0 0 _) := by rw [← hfe1]
                    _ = maxFrameFold 0 (max fe0 0) _ := (maxFrameFold_max 0 _ fe0 0).symm
                    _ = maxFrameFold 0 fe0 _ := by rw [max_eq_left h0]
                    _ = maxFrameFold 0 (maxFrameFold 0 0 _) _ := by rw [hfe0]
                · exact le_max_right _ 0

/-- C2 counterexample: on a file whose bone section holds one record with
frame 7 and whose morph section is empty, the imported maximum frame is 7
with a bound bone target but 0 with an unbound bone target, so the result
is not the largest frame in the file regardless of binding. -/
theorem importVmd_max_frame_cex :
    importVmd [] [] testVmd1 none (some ⟨[], []⟩) 0 0 =
      .ok (none, some ⟨[], []⟩, 0, ⟨testVmd1.data, 169⟩) ∧
    importVmd [] [] testVmd1 (some ⟨[], []⟩) (some ⟨[], []⟩) 0 0 =
      .ok (some ⟨[], []⟩, some ⟨[], []⟩, 7, ⟨testVmd1.data, 169⟩) ∧
    vmdAllFrames testVmd1 = [7] ∧ (0 : ℤ) ≠ 7 := by
  refine ⟨by decide, by decide, by decide, by decide⟩

/-- C2 witness: the amended theorem applied to the one-record file with
both targets bound: the result is 7, the largest frame in the file. -/
theorem importVmd_max_frame_witness :
    importVmd [] [] testVmd1 (some ⟨[], []⟩) (some ⟨[], []⟩) 0 0 =
      .ok (some ⟨[], []⟩, some ⟨[], []⟩, 7, ⟨testVmd1.data, 169⟩) ∧
    ((7 : ℤ) = maxFrameFold 0 0 (vmdAllFrames testVmd1) ∧ (0 : ℤ) ≤ 7) :=
  ⟨by decide,
   importVmd_max_frame_bound [] [] testVmd1 ⟨[], []⟩ ⟨[], []⟩
     (some ⟨[], []⟩, some ⟨[], []⟩, 7, ⟨testVmd1.data, 169⟩) (by decide)⟩

/-- C7: a fixed-width name buffer with no null byte fails with the
no-null error, every name-decoding failure is one of the two name errors,
and such a failure on the first bone record aborts the entire import (the
result of `importVmd` is that error, for any morph target, so no later
record of either section is processed). -/
theorem name_decode_error_aborts :
    (∀ s : List Nat, ¬ 0 ∈ s → vmdStr s = .error .noNull) ∧
    (∀ (s : List Nat) (e : VmdError), vmdStr s = .error e → e = .noNull ∨ e = .badEncoding) ∧
    (∀ (bm fm : List (String × String)) (ofs : ByteStream) (magic : String) (e : VmdError)
        (a : Armature) (face : Option FaceObj) (offset frame_end : ℤ),
        50 ≤ ofs.data.length - ofs.pos →
        vmdStr ((ofs.data.drop ofs.pos).take 30) = .ok magic →
        startswith magic ("Vocaloid Motion Data") = true →
        4 ≤ ofs.data.length - (ofs.pos + 50) →
        0 < leU32 ((ofs.data.drop (ofs.pos + 50)).take 4) →
        boneRecordSize ≤ ofs.data.length - (ofs.pos + 54) →
        vmdStr ((ofs.data.drop (ofs.pos + 54)).take 15) = .error e →
        importVmd bm fm ofs (some a) face offset frame_end = .error e) := by
  refine ⟨?_, ?_, ?_⟩
  · intro s h
    rw [vmdStr, findNull_eq_none h]
  · intro s e h
    exact vmdStr_error h
  · intro bm fm ofs magic e a face offset frame_end h50 hm hgood hc4 hpos hrec hname
    have hH : readPacked ofs (30 + 20) = .ok ((ofs.data.drop ofs.pos).take 50, ofs.seek 50) :=
      readPacked_eq_ok.mpr ⟨h50, rfl⟩
    have ht : ((ofs.data.drop ofs.pos).take 50).take 30 = (ofs.data.drop ofs.pos).take 30 := by
      rw [List.take_take]
      norm_num
    have hcount : readPacked (ofs.seek 50) 4 =
        .ok ((ofs.data.drop (ofs.pos + 50)).take 4, ⟨ofs.data, ofs.pos + 54⟩) := by
      refine readPacked_eq_ok.mpr ⟨hc4, ?_⟩
      simp [ByteStream.seek, seek_seek]
    have hBone : importVmdBone bm (ofs.seek 50) a offset = .error e := by
      rw [importVmdBone]
      simp only [hcount]
      obtain ⟨k, hk⟩ : ∃ k, leU32 ((ofs.data.drop (ofs.pos + 50)).take 4) = k + 1 :=
        ⟨leU32 ((ofs.data.drop (ofs.pos + 50)).take 4) - 1, by omega⟩
      rw [hk, importVmdBoneLoop]
      have hr1 : readPacked ⟨ofs.data, ofs.pos + 54⟩ boneRecordSize =
          .ok ((ofs.data.drop (ofs.pos + 54)).take boneRecordSize,
            (⟨ofs.data, ofs.pos + 54⟩ : ByteStream).seek boneRecordSize) :=
        readPacked_eq_ok.mpr ⟨hrec, rfl⟩
      simp only [hr1]
      have hname' :
          vmdStr (unpackBone ((ofs.data.drop (ofs.pos + 54)).take boneRecordSize)).name =
            .error e := by
        show vmdStr (((ofs.data.drop (ofs.pos + 54)).take boneRecordSize).take 15) = .error e
        rw [List.take_take]
        have h15 : (15 : ℕ) ⊓ boneRecordSize = 15 := by norm_num [boneRecordSize]
        rw [h15]
        exact hname
      simp only [hname']
    rw [importVmd]
    simp only [hH, ht, hm, hgood, if_true, hBone, Except.map]

/-- A file whose single bone record's name buffer holds no null byte. -/
def testVmdBadName : ByteStream :=
  ⟨testHeader ++ u32le 1 ++
    (List.replicate 15 0x41 ++ u32le 0 ++ List.replicate 28 0 ++ List.replicate 64 0), 0⟩

/-- C7 witness: the abort theorem applied to a name buffer of fifteen
0x41 bytes with no null terminator; the whole import fails with the
no-null error. -/
theorem name_decode_error_aborts_witness :
    vmdStr (List.replicate 15 0x41) = .error .noNull ∧
    vmdStr ((testVmdBadName.data.drop (testVmdBadName.pos + 54)).take 15) = .error .noNull ∧
    importVmd [] [] testVmdBadName (some ⟨[], []⟩) (some ⟨[], []⟩) 0 0 = .error .noNull :=
  ⟨name_decode_error_aborts.1 (List.replicate 15 0x41) (by decide),
   by decide,
   name_decode_error_aborts.2.2 [] [] testVmdBadName ("Vocaloid Motion Data 0002") .noNull
     ⟨[], []⟩ (some ⟨[], []⟩) 0 0 (by decide) (by decide) (by decide) (by decide) (by decide)
     (by decide) (by decide)⟩

/-- C8: a read that needs more bytes than remain fails with the
truncation error; in particular a bone section declaring two records but
truncated after the first fails during bone decoding with a bound bone
target, for any morph target, so the morph section is never parsed. -/
theorem truncation_aborts :
    (∀ (ofs : ByteStream) (n : Nat), ofs.data.length - ofs.pos < n →
        readPacked ofs n = .error .truncated) ∧
    (∀ (bm fm : List (String × String)) (ofs : ByteStream) (magic s : String)
        (a : Armature) (face : Option FaceObj) (offset frame_end : ℤ),
        50 ≤ ofs.data.length - ofs.pos →
        vmdStr ((ofs.data.drop ofs.pos).take 30) = .ok magic →
        startswith magic ("Vocaloid Motion Data") = true →
        4 ≤ ofs.data.length - (ofs.pos + 50) →
        leU32 ((ofs.data.drop (ofs.pos + 50)).take 4) = 2 →
        boneRecordSize ≤ ofs.data.length - (ofs.pos + 54) →
        vmdStr ((ofs.data.drop (ofs.pos + 54)).take 15) = .ok s →
        ofs.data.length - (ofs.pos + 54 + boneRecordSize) < boneRecordSize →
        importVmd bm fm ofs (some a) face offset frame_end = .error .truncated) := by
  constructor
  · intro ofs n h
    exact readPacked_eq_error h
  · intro bm fm ofs magic s a face offset frame_end h50 hm hgood hc4 hc2 hrec hname htr
    have hH : readPacked ofs (30 + 20) = .ok ((ofs.data.drop ofs.pos).take 50, ofs.seek 50) :=
      readPacked_eq_ok.mpr ⟨h50, rfl⟩
    have ht : ((ofs.data.drop ofs.pos).take 50).take 30 = (ofs.data.drop ofs.pos).take 30 := by
      rw [List.take_take]
      norm_num
    have hcount : readPacked (ofs.seek 50) 4 =
        .ok ((ofs.data.drop (ofs.pos + 50)).take 4, ⟨ofs.data, ofs.pos + 54⟩) := by
      refine readPacked_eq_ok.mpr ⟨hc4, ?_⟩
      simp [ByteStream.seek, seek_seek]
    have hBone : importVmdBone bm (ofs.seek 50) a offset = .error .truncated := by
      rw [importVmdBone]
      simp only [hcount, hc2]
      rw [show (2 : Nat) = 1 + 1 from rfl, importVmdBoneLoop]
      have hr1 : readPacked ⟨ofs.data, ofs.pos + 54⟩ boneRecordSize =
          .ok ((ofs.data.drop (ofs.pos + 54)).take boneRecordSize,
            (⟨ofs.data, ofs.pos + 54⟩ : ByteStream).seek boneRecordSize) :=
        readPacked_eq_ok.mpr ⟨hrec, rfl⟩
      simp only [hr1]
      have hname' :
          vmdStr (unpackBone ((ofs.data.drop (ofs.pos + 54)).take boneRecordSize)).name =
            .ok s := by
        show vmdStr (((ofs.data.drop (ofs.pos + 54)).take boneRecordSize).take 15) = .ok s
        rw [List.take_take]
        have h15 : (15 : ℕ) ⊓ boneRecordSize = 15 := by norm_num [boneRecordSize]
        rw [h15]
        exact hname
      simp only [hname']
      rw [show (1 : Nat) = 0 + 1 from rfl, importVmdBoneLoop]
      have hr2 : readPacked ((⟨ofs.data, ofs.pos + 54⟩ : ByteStream).seek boneRecordSize)
          boneRecordSize = .error .truncated := by
        refine readPacked_eq_error ?_
        simpa [ByteStream.seek] using htr
      simp only [hr2]
    rw [importVmd]
    simp only [hH, ht, hm, hgood, if_true, hBone, Except.map]

/-- A file whose bone section declares two records but ends after the
first. -/
def testVmdTrunc : ByteStream :=
  ⟨testHeader ++ u32le 2 ++ testBoneRec, 0⟩

/-- C8 witness: the truncation theorem applied to the two-record file
truncated after its first record, and to a bare 2-byte stream. -/
theorem truncation_aborts_witness :
    readPacked ⟨[1, 2], 0⟩ 4 = .error .truncated ∧
    importVmd [] [] testVmdTrunc (some ⟨[], []⟩) (some ⟨[], []⟩) 0 0 = .error .truncated :=
  ⟨truncation_aborts.1 ⟨[1, 2], 0⟩ 4 (by decide),
   truncation_aborts.2 [] [] testVmdTrunc ("Vocaloid Motion Data 0002") ("a") ⟨[], []⟩
     (some ⟨[], []⟩) 0 0 (by decide) (by decide) (by decide) (by decide) (by decide) (by decide)
     (by decide) (by decide)⟩
